import Mathlib

/-!
Verification development for the equation evaluation engine of the
ParametricSVGExtension repository (source: src/js/equations.js).

The engine is embedded shallowly: JavaScript strings become `List Char`,
JavaScript numbers become the rational type `JSNum` (the IEEE-754 rounding of
JavaScript floats is not modelled; every concrete input exercised below stays
within exactly representable values where float and rational arithmetic
agree, and the special values NaN/Infinity are likewise outside the model, as
noted at the operations that could produce them), JavaScript exceptions become
`Except Err`, and the in-place mutation of the caller-owned variables object
becomes explicit state passing of an association list.  The recursion of the
source (which is not structurally terminating: rewriting can grow the text)
is made total with an explicit fuel parameter; exhaustion is reported by the
distinguished error `Err.outOfFuel`, which corresponds to no behaviour of the
source and is reachable only when the fuel chosen for a concrete run is too
small.  The debug logging of the source (`log`, `DEBUGINC`, `DEBUGDEC`) is
pure console output with no effect on control flow or results and is omitted.

In addition, `EvalOut.log` is ghost instrumentation (absent from the source,
influencing no result): it records the dependency list received by every
(recursive) invocation of `evaluateEquation`, so that the cycle-detection
invariant about dependency stacks can be stated.
-/

namespace Equations

/-- JavaScript strings, as lists of characters. -/
abbrev Str := List Char

/-- JavaScript whitespace as matched by `\s` and `String.trim` (ASCII subset;
the Unicode space characters are not modelled, no claim exercises them). -/
def isJsWs (c : Char) : Bool :=
  c = ' ' || c = '\t' || c = '\n' || c = '\r' || c = Char.ofNat 11 || c = Char.ofNat 12

/-- `String.prototype.trim`. -/
def trimWs (l : Str) : Str :=
  ((l.dropWhile isJsWs).reverse.dropWhile isJsWs).reverse

/-- JavaScript numbers, modelled as rational values `num / den` kept in
lowest terms with a positive denominator.  A self-contained structure rather
than Mathlib's `ℚ` so that every operation reduces inside the kernel
(Mathlib's `Rat` operations are `@[irreducible]`).  The IEEE-754 rounding of
JavaScript floats is not modelled; every concrete input exercised by the
claims stays within values on which float and exact rational arithmetic
agree. -/
structure JSNum : Type where
  num : ℤ
  den : ℕ
deriving DecidableEq, Repr

instance (n : Nat) : OfNat JSNum n := ⟨⟨(n : ℤ), 1⟩⟩

namespace JSNum

/-- Normalize `n / d` (with `d > 0` at every use site) to lowest terms. -/
def mk' (n : ℤ) (d : ℕ) : JSNum :=
  if d = 0 then ⟨0, 1⟩
  else
    let g := Nat.gcd n.natAbs d
    ⟨Int.tdiv n (g : ℤ), d / g⟩

/-- Normalize `n / d` for a possibly negative denominator. -/
def mkInt (n d : ℤ) : JSNum :=
  if d < 0 then mk' (-n) (-d).toNat else mk' n d.toNat

def add (a b : JSNum) : JSNum :=
  mk' (a.num * (b.den : ℤ) + b.num * (a.den : ℤ)) (a.den * b.den)

def sub (a b : JSNum) : JSNum :=
  mk' (a.num * (b.den : ℤ) - b.num * (a.den : ℤ)) (a.den * b.den)

def mul (a b : JSNum) : JSNum := mk' (a.num * b.num) (a.den * b.den)

/-- JavaScript `/`.  Division by zero yields ±Infinity/NaN in JavaScript,
which the rational model cannot represent; it yields 0 here, and no claim
exercises it. -/
def div (a b : JSNum) : JSNum := mkInt (a.num * (b.den : ℤ)) (a.den * b.num)

def neg (a : JSNum) : JSNum := ⟨-a.num, a.den⟩

/-- `Math.floor`. -/
def floor (a : JSNum) : ℤ := Int.fdiv a.num (a.den : ℤ)

/-- Truncation toward zero (the division underlying JavaScript's `%`). -/
def trunc (a : JSNum) : ℤ := Int.tdiv a.num (a.den : ℤ)

def ofInt (z : ℤ) : JSNum := ⟨z, 1⟩

def powNat (a : JSNum) : Nat → JSNum
  | 0 => 1
  | n + 1 => mul (powNat a n) a

/-- `a` raised to an integral power (negative exponents via division, so
`0 ^ -1` is 0 here where JavaScript has Infinity; no claim exercises it). -/
def powInt (a : JSNum) (z : ℤ) : JSNum :=
  if z < 0 then div 1 (powNat a (-z).toNat) else powNat a z.toNat

end JSNum

/-- Numeric value of a decimal digit character. -/
def digitVal (c : Char) : Nat := c.toNat - '0'.toNat

/-- Value of a string of decimal digits. -/
def digitsToNat (l : Str) : Nat := l.foldl (fun a c => a * 10 + digitVal c) 0

def isHexDigit (c : Char) : Bool :=
  c.isDigit || ('a' ≤ c && c ≤ 'f') || ('A' ≤ c && c ≤ 'F')

def hexVal (c : Char) : Nat :=
  if c.isDigit then digitVal c
  else if 'a' ≤ c && c ≤ 'f' then c.toNat - 'a'.toNat + 10
  else c.toNat - 'A'.toNat + 10

def isOctDigit (c : Char) : Bool := '0' ≤ c && c ≤ '7'

def isBinDigit (c : Char) : Bool := c = '0' || c = '1'

/-- Value of a string of digits in a given radix (non-decimal integer
literals `0x…`, `0o…`, `0b…` accepted by `Number(...)`). -/
def parseRadix (radix : Nat) (isD : Char → Bool) (val : Char → Nat) (l : Str) : Option JSNum :=
  if l ≠ [] ∧ l.all isD then some (.ofInt (l.foldl (fun a c => a * radix + val c) 0 : ℕ))
  else none

/-- The optional exponent part of a decimal literal (`e`/`E`, optional sign,
digits), applied to an already-parsed mantissa; the whole rest of the input
must be consumed. -/
def parseExpPart (m : JSNum) : Str → Option JSNum
  | [] => some m
  | c :: r =>
    if c = 'e' ∨ c = 'E' then
      let sgn : Bool × Str := match r with
        | '+' :: t => (false, t)
        | '-' :: t => (true, t)
        | _ => (false, r)
      let ds := sgn.2.takeWhile Char.isDigit
      let rest := sgn.2.dropWhile Char.isDigit
      if ds = [] ∨ rest ≠ [] then none
      else
        let e : ℤ := (digitsToNat ds : ℤ)
        some (m.mul (JSNum.powInt 10 (if sgn.1 then -e else e)))
    else none

/-- An unsigned decimal literal as accepted by `Number(...)`:
`digits [. digits] [exp]` or `. digits [exp]`. -/
def parseDecimal (l : Str) : Option JSNum :=
  let ds := l.takeWhile Char.isDigit
  let r1 := l.dropWhile Char.isDigit
  if ds = [] then
    match l with
    | '.' :: r =>
      let fs := r.takeWhile Char.isDigit
      if fs = [] then none
      else parseExpPart (JSNum.mk' (digitsToNat fs : ℤ) (10 ^ fs.length)) (r.dropWhile Char.isDigit)
    | _ => none
  else
    match r1 with
    | '.' :: r =>
      let fs := r.takeWhile Char.isDigit
      parseExpPart ((JSNum.ofInt (digitsToNat ds : ℤ)).add
          (JSNum.mk' (digitsToNat fs : ℤ) (10 ^ fs.length)))
        (r.dropWhile Char.isDigit)
    | _ => parseExpPart (.ofInt (digitsToNat ds : ℤ)) r1

/-- The JavaScript `Number(string)` conversion, restricted to the rational
model: `none` plays the role of `NaN`.  The `Infinity` literals (which
`Number` maps to the float infinities) are not representable rationally and
are mapped to `none`; no claim exercises them. -/
def jsToNumber (l : Str) : Option JSNum :=
  let t := trimWs l
  match t with
  | [] => some 0
  | '+' :: r => parseDecimal r
  | '-' :: r => (parseDecimal r).map JSNum.neg
  | '0' :: c :: r =>
    if c = 'x' ∨ c = 'X' then parseRadix 16 isHexDigit hexVal r
    else if c = 'o' ∨ c = 'O' then parseRadix 8 isOctDigit digitVal r
    else if c = 'b' ∨ c = 'B' then parseRadix 2 isBinDigit digitVal r
    else parseDecimal t
  | _ => parseDecimal t

/-- JavaScript number-to-string coercion.  Integral values print exactly as in
JavaScript (decimal digits, `-` sign); for non-integral rationals the model
prints `num/den`, standing in for the shortest-roundtrip decimal expansion of
the corresponding float, which has no rational counterpart.  Every concrete
input exercised by the claims stays integral. -/
def numToString (q : JSNum) : Str :=
  if q.den = 1 then (toString q.num).data
  else (toString q.num).data ++ '/' :: (toString (q.den : ℤ)).data

/-- A JavaScript value flowing through the evaluator: a number or a string.
(The source is meant to produce only numbers, but `resolveParentheses` can
return a string — see the claims below.) -/
inductive JSVal : Type where
  | num (q : JSNum)
  | str (s : Str)
deriving DecidableEq, Repr

/-- String coercion as performed by the JavaScript `+` operator when one
operand is a string. -/
def jsValToStr : JSVal → Str
  | .num q => numToString q
  | .str s => s

/-- The error taxonomy of the spec (§7), plus `outOfFuel`, the artifact of
making the source's unbounded recursion total (it corresponds to no source
behaviour), and `resolutionFailure` for the defensive no-progress guard of
`resolveParentheses` (spec §4.2 "fail with a resolution error"). -/
inductive Err : Type where
  | undefinedVariable
  | disabledVariable
  | cyclicDependency
  | parenthesisMismatch
  | operationFailure
  | emptyExpression
  | parseFailure
  | resolutionFailure
  | outOfFuel
deriving DecidableEq, Repr

/-- A Variable record: `{name, value, disabled, comment}`.  `value = none`
models an absent/undefined `value` property. -/
structure Variable : Type where
  name : Str
  value : Option JSVal
  disabled : Bool
  comment : Str
deriving DecidableEq, Repr

/-- The caller-owned variables mapping (a JavaScript object with unique keys),
as an association list looked up and updated at the first matching key. -/
abbrev VarMap := List (Str × Variable)

/-- Property lookup `variables[variablename]`. -/
def lookupVar : VarMap → Str → Option Variable
  | [], _ => none
  | (k, v) :: rest, name => if k = name then some v else lookupVar rest name

/-- In-place mutation `variables[variablename].value = v` (only ever reached
after a successful lookup, so only existing entries are touched). -/
def setValue : VarMap → Str → JSVal → VarMap
  | [], _, _ => []
  | (k, v) :: rest, name, newv =>
    if k = name then (k, { v with value := some newv }) :: rest
    else (k, v) :: setValue rest name newv

/-- Everything about a variables mapping except the `value` fields: the keys
(in order) and each entry's `name`, `disabled` and `comment` fields. -/
def varFrame (vars : VarMap) : List (Str × Str × Bool × Str) :=
  vars.map (fun p => (p.1, p.2.name, p.2.disabled, p.2.comment))

/-- Number of occurrences of a character (the source counts them as
`equation.split(c).length - 1`). -/
def countChar (l : Str) (c : Char) : Nat := (l.filter (fun x => x = c)).length

/-- `checkParentheses`: equal numbers of `(` and `)` required before any
resolution.  The source throws two differently-worded messages for the two
directions of imbalance; both are the spec's `ParenthesisMismatch` kind. -/
def checkParentheses (equation : Str) : Except Err Unit :=
  if countChar equation '(' = countChar equation ')' then .ok ()
  else .error .parenthesisMismatch

/-- First character of an identifier, `[a-zA-Z_]` (ASCII, as in the source's
regex). -/
def isIdentStart (c : Char) : Bool := c.isAlpha || c = '_'

/-- Subsequent identifier characters, `[a-zA-Z0-9_]`. -/
def isIdentChar (c : Char) : Bool := isIdentStart c || c.isDigit

/-- `VARIABLEREG.exec(equation)`: the leftmost, greedily-extended match of
`[a-zA-Z_][a-zA-Z0-9_]*`, returned as (start index, matched identifier). -/
def findIdent : Str → Option (Nat × Str)
  | [] => none
  | c :: rest =>
    if isIdentStart c then some (0, c :: rest.takeWhile isIdentChar)
    else (findIdent rest).map (fun p => (p.1 + 1, p.2))

/-- Replace `len` characters starting at `idx` with `repl`
(`slice(0, idx) + repl + slice(idx + len)`). -/
def listSplice (l : Str) (idx len : Nat) (repl : Str) : Str :=
  l.take idx ++ repl ++ l.drop (idx + len)

/-- The number sub-pattern `-?\d+(?:\.\d+)?` of the operator regexes, matched
at the head of the input; returns (matched text, rest).  The pattern is
deterministic here: no continuation of the surrounding operator regex can
consume a digit, a `-` or a `.` that greedy matching took, so no backtracking
is observable. -/
def matchNumber (l : Str) : Option (Str × Str) :=
  let neg : Str × Str := match l with
    | '-' :: r => (['-'], r)
    | _ => ([], l)
  let ds := neg.2.takeWhile Char.isDigit
  let l2 := neg.2.dropWhile Char.isDigit
  if ds = [] then none
  else
    match l2 with
    | '.' :: r =>
      let fs := r.takeWhile Char.isDigit
      if fs = [] then some (neg.1 ++ ds, l2)
      else some (neg.1 ++ ds ++ '.' :: fs, r.dropWhile Char.isDigit)
    | _ => some (neg.1 ++ ds, l2)

/-- Consume an exact literal (the escaped operator text) from the head of the
input. -/
def dropLiteral : Str → Str → Option Str
  | [], l => some l
  | _ :: _, [] => none
  | c :: cs, x :: xs => if x = c then dropLiteral cs xs else none

/-- One attempt of the operator regex
`(?:^\+)?(?<a>-?\d+(?:\.\d+)?)\s*OP\s*(?<b>-?\d+(?:\.\d+)?)` at a fixed start
position (`isStart` true iff that position is 0, where alone `^\+` can
apply; consuming the `+` is forced whenever it appears, because the `a` group
can never match at a `+`).  Returns (total matched length, a, b). -/
def tryMatchSuffix (isStart : Bool) (op : Str) (l : Str) : Option (Nat × Str × Str) :=
  let l0 := if isStart then (match l with | '+' :: r => r | _ => l) else l
  match matchNumber l0 with
  | none => none
  | some (a, l1) =>
    match dropLiteral op (l1.dropWhile isJsWs) with
    | none => none
    | some l3 =>
      match matchNumber (l3.dropWhile isJsWs) with
      | none => none
      | some (b, l5) => some (l.length - l5.length, a, b)

/-- Scan successive start positions, leftmost first, as `RegExp.exec` does. -/
def execOpAux (op : Str) : Str → Nat → Option (Nat × Nat × Str × Str)
  | l, idx =>
    match tryMatchSuffix (idx = 0) op l with
    | some (len, a, b) => some (idx, len, a, b)
    | none =>
      match l with
      | [] => none
      | _ :: rest => execOpAux op rest (idx + 1)

/-- `reg.exec(equation)` for one operator's regex: the leftmost match,
as (index, length, a, b). -/
def execOp (op : Str) (l : Str) : Option (Nat × Nat × Str × Str) := execOpAux op l 0

/-- A successful operator match within a tier, together with the operator's
binary function. -/
structure OpMatch : Type where
  idx : Nat
  len : Nat
  a : Str
  b : Str
  f : JSNum → JSNum → JSNum

/-- `Math.pow`, within the rational model: integral exponents only (a
fractional exponent yields an irrational float, outside the model; no claim
exercises one, and both nearby definitions compared by the refinement claim
use this same function). -/
def jsPow (a b : JSNum) : JSNum := if b.den = 1 then a.powInt b.num else 0

/-- `Math.floor(a/b)` for the `//` operator. -/
def jsFloorDiv (a b : JSNum) : JSNum := .ofInt (a.div b).floor

/-- The JavaScript `%` remainder: `a - b * trunc(a/b)`, sign of the dividend
(`a % 0` is NaN in JavaScript, 0 here; no claim exercises it). -/
def jsMod (a b : JSNum) : JSNum :=
  if b.num = 0 then 0 else a.sub (b.mul (.ofInt (a.div b).trunc))

/-- The `OPERATIONPRIORITY` table: tiers in priority order, operators within
a tier in declaration order. -/
def OPERATIONPRIORITY : List (List (Str × (JSNum → JSNum → JSNum))) :=
  [[("^".data, jsPow)],
   [("*".data, JSNum.mul), ("//".data, jsFloorDiv), ("/".data, JSNum.div),
    ("%".data, jsMod)],
   [("+".data, JSNum.add), ("-".data, JSNum.sub)]]

/-- The candidate match of one operator, as an `OpMatch`. -/
def opCandidate (l : Str) (opf : Str × (JSNum → JSNum → JSNum)) : Option OpMatch :=
  (execOp opf.1 l).map (fun m => ⟨m.1, m.2.1, m.2.2.1, m.2.2.2, opf.2⟩)

/-- One pass of the source's selection loop body:
`if(!match || m.index < match.index){ match = m; f = func; }`. -/
def pickStep (l : Str) (best : Option OpMatch) (opf : Str × (JSNum → JSNum → JSNum)) :
    Option OpMatch :=
  match opCandidate l opf with
  | none => best
  | some c =>
    match best with
    | none => some c
    | some bm => if c.idx < bm.idx then some c else some bm

/-- The source's per-tier selection loop: run every operator's regex in
declaration order, keep the match with the strictly smallest index (so on
equal indexes the operator declared earlier wins). -/
def pickMatch (tier : List (Str × (JSNum → JSNum → JSNum))) (l : Str) : Option OpMatch :=
  tier.foldl (pickStep l) none

/-- The tier loop: the first tier with any match provides the reduction. -/
def findTierMatch : List (List (Str × (JSNum → JSNum → JSNum))) → Str → Option OpMatch
  | [], _ => none
  | tier :: rest, l =>
    match pickMatch tier l with
    | some m => some m
    | none => findTierMatch rest l

/-- `parseValue`: reject blank text (which `Number` would silently coerce to
0) with `EmptyExpression`, reject NaN with `ParseFailure`, otherwise return
the number.  (The source threads `variables`/`dependencies` parameters it
never reads; they are dropped here.) -/
def parseValue (equation : Str) : Except Err JSNum :=
  if trimWs equation = [] then .error .emptyExpression
  else
    match jsToNumber equation with
    | none => .error .parseFailure
    | some q => .ok q

/-- `evaluateOperations`: find the highest-priority leftmost reduction,
splice its result in, and restart from the first tier; when no tier matches,
parse the residual text.  (`variables`/`dependencies` are threaded but unread
in the source and dropped here.) -/
def evaluateOperations : Nat → Str → Except Err JSNum
  | 0, _ => .error .outOfFuel
  | fuel + 1, equation =>
    match findTierMatch OPERATIONPRIORITY equation with
    | none => parseValue equation
    | some m =>
      match parseValue m.a with
      | .error e => .error e
      | .ok a =>
        match parseValue m.b with
        | .error e => .error e
        | .ok b =>
          let equation2 := listSplice equation m.idx m.len (numToString (m.f a b))
          if equation2 = equation then .error .operationFailure
          else evaluateOperations fuel equation2

/-- `String.prototype.indexOf` for a single character: the index of the first
occurrence, or -1. -/
def jsIndexOf (l : Str) (c : Char) : Int :=
  match l.findIdx? (fun x => x = c) with
  | none => -1
  | some n => (n : Int)

/-- Clamp one `slice` bound to `[0, len]`, resolving negative indices from the
end, as JavaScript does. -/
def jsSliceIdx (len : Nat) (i : Int) : Nat :=
  if i < 0 then ((len : Int) + i).toNat else min i.toNat len

/-- `String.prototype.slice(s, e)` (the one-argument form is
`jsSlice l s l.length`). -/
def jsSlice (l : Str) (s e : Int) : Str :=
  (l.take (jsSliceIdx l.length e)).drop (jsSliceIdx l.length s)

/-- `resolveParentheses`, faithfully mirroring the source's branch structure
on the raw -1/index values, including the JavaScript semantics of
`slice(0, -1)` in the `close < open` branch when no `)` exists (reachable
only on sub-strings produced mid-recursion, since `checkParentheses` has
already accepted the whole text).  The branch for a `)` preceding any `(`
returns `value + equation.slice(close+1)`, a JavaScript *string*
concatenation — hence the result type is a value, not a number.
(`variables`/`dependencies` are threaded but unread in the source and
dropped here.) -/
def resolveParentheses : Nat → Str → Except Err JSVal
  | 0, _ => .error .outOfFuel
  | fuel + 1, equation =>
    let opn := jsIndexOf equation '('
    let cls := jsIndexOf equation ')'
    if opn < 0 ∧ cls < 0 then
      match evaluateOperations fuel equation with
      | .error e => .error e
      | .ok q => .ok (.num q)
    else if opn > 0 ∧ cls < 0 then .error .parenthesisMismatch
    else if opn < 0 ∨ cls < opn then
      match resolveParentheses fuel (jsSlice equation 0 cls) with
      | .error e => .error e
      | .ok v => .ok (.str (jsValToStr v ++ jsSlice equation (cls + 1) equation.length))
    else
      match resolveParentheses fuel (jsSlice equation (opn + 1) equation.length) with
      | .error e => .error e
      | .ok v =>
        let equation2 := jsSlice equation 0 opn ++ jsValToStr v
        if equation2 = equation then .error .resolutionFailure
        else resolveParentheses fuel equation2

/-- Strip one leading `=` (spreadsheet-style formula marker). -/
def stripLeadingEq : Str → Str
  | '=' :: r => r
  | l => l

instance {ε α : Type} [DecidableEq ε] [DecidableEq α] : DecidableEq (Except ε α) := by
  intro a b
  cases a <;> cases b
  case error.error x y =>
    exact if h : x = y then .isTrue (by rw [h]) else .isFalse (fun hc => by cases hc; exact h rfl)
  case error.ok x y => exact .isFalse (fun hc => by cases hc)
  case ok.error x y => exact .isFalse (fun hc => by cases hc)
  case ok.ok x y =>
    exact if h : x = y then .isTrue (by rw [h]) else .isFalse (fun hc => by cases hc; exact h rfl)

/-- Result of a stateful stage: the outcome, the variables mapping after all
mutations performed so far (on success and on error alike — JavaScript
mutations are not rolled back by a throw), and the ghost log of the
dependency lists received by every `evaluateEquation` invocation performed. -/
structure EvalOut (α : Type) : Type where
  res : Except Err α
  vars : VarMap
  log : List (List Str)
deriving DecidableEq, Repr

/-- The `while((variable = VARIABLEREG.exec(equation)) !== null)` loop of
`substituteVariables`: check the leftmost identifier (existence of a value,
then `disabled`, then cycle), recursively evaluate a still-textual value and
memoize it into the mapping, splice the value's text over the identifier,
and repeat.

The body of the recursive `evaluateEquation(value, variables, depcopy)` call
is inlined here (the theorem `evaluateEquation_unfold` below states, by
`rfl`, that the inlined text is exactly `evaluateEquation fuel`), which makes
the whole cluster structurally recursive in the fuel. -/
def substLoop : Nat → Str → VarMap → List Str → EvalOut Str
  | 0, _, vars, _ => ⟨.error .outOfFuel, vars, []⟩
  | fuel + 1, equation, vars, deps =>
    match findIdent equation with
    | none => ⟨.ok equation, vars, []⟩
    | some (idx, name) =>
      match lookupVar vars name with
      | none => ⟨.error .undefinedVariable, vars, []⟩
      | some v =>
        match v.value with
        | none => ⟨.error .undefinedVariable, vars, []⟩
        | some stored =>
          if v.disabled then ⟨.error .disabledVariable, vars, []⟩
          else if name ∈ deps then ⟨.error .cyclicDependency, vars, []⟩
          else
            let step : EvalOut JSVal :=
              match stored with
              | .str s =>
                -- evaluateEquation fuel s vars (deps ++ [name]), inlined:
                let o0 := substLoop fuel (stripLeadingEq s) vars (deps ++ [name])
                let o1 : EvalOut JSVal :=
                  match o0.res with
                  | .error e => ⟨.error e, o0.vars, o0.log⟩
                  | .ok eq2 =>
                    match checkParentheses eq2 with
                    | .error e => ⟨.error e, o0.vars, o0.log⟩
                    | .ok _ => ⟨resolveParentheses fuel eq2, o0.vars, o0.log⟩
                let o : EvalOut JSVal := ⟨o1.res, o1.vars, (deps ++ [name]) :: o1.log⟩
                -- memoization: variables[variablename].value = result
                match o.res with
                | .error e => ⟨.error e, o.vars, o.log⟩
                | .ok v2 => ⟨.ok v2, setValue o.vars name v2, o.log⟩
              | .num q => ⟨.ok (.num q), vars, []⟩
            match step.res with
            | .error e => ⟨.error e, step.vars, step.log⟩
            | .ok v2 =>
              let equation2 := listSplice equation idx name.length (jsValToStr v2)
              if equation2 = equation then ⟨.error .undefinedVariable, step.vars, step.log⟩
              else
                let o2 := substLoop fuel equation2 step.vars deps
                ⟨o2.res, o2.vars, step.log ++ o2.log⟩

/-- `substituteVariables`: the substitution loop, then the parenthesis-count
check, then parenthesis resolution. -/
def substituteVariables (fuel : Nat) (equation : Str) (vars : VarMap) (deps : List Str) :
    EvalOut JSVal :=
  let o := substLoop fuel equation vars deps
  match o.res with
  | .error e => ⟨.error e, o.vars, o.log⟩
  | .ok eq2 =>
    match checkParentheses eq2 with
    | .error e => ⟨.error e, o.vars, o.log⟩
    | .ok _ => ⟨resolveParentheses fuel eq2, o.vars, o.log⟩

/-- `evaluateEquation`: strip one leading `=`, then substitute → check →
resolve → evaluate → parse.  (The source's `equation+""` string coercion is
the identity here, inputs being strings already; the ghost log records this
invocation's `deps` in front of the recursive invocations' lists.) -/
def evaluateEquation (fuel : Nat) (equation : Str) (vars : VarMap) (deps : List Str) :
    EvalOut JSVal :=
  let o := substituteVariables fuel (stripLeadingEq equation) vars deps
  ⟨o.res, o.vars, deps :: o.log⟩

/-- The inlined recursive call inside `substLoop` is exactly
`evaluateEquation` at the decremented fuel. -/
theorem evaluateEquation_unfold (fuel : Nat) (s : Str) (vars : VarMap) (deps : List Str) :
    evaluateEquation fuel s vars deps =
      (let o0 := substLoop fuel (stripLeadingEq s) vars deps
       let o1 : EvalOut JSVal :=
         match o0.res with
         | .error e => ⟨.error e, o0.vars, o0.log⟩
         | .ok eq2 =>
           match checkParentheses eq2 with
           | .error e => ⟨.error e, o0.vars, o0.log⟩
           | .ok _ => ⟨resolveParentheses fuel eq2, o0.vars, o0.log⟩
       ⟨o1.res, o1.vars, deps :: o1.log⟩) := rfl

/-!
## Reference rendering of Operator Evaluation from the spec's words (§4.3)

For the refinement claim about the operator-reduction strategy, a second
definition of the operator-evaluation stage is written directly from the
spec's words — "three priority tiers, highest first: `^`; `*`, `//`, `/`,
`%` tested in this order; `+`, `-`"; "across all operators in the tier,
select the match with the smallest starting offset (leftmost wins; ties
broken by tier-declaration order)"; "if no operator in the tier matches,
move to the next tier; if no tier produces a match, delegate to Value
Parsing"; "splice the numeric result into the text replacing the matched
span, and restart the entire tier scan from tier 1" — and compared against
the rendering of the source above.
-/

/-- The spec's tier table: `^`; then `*`, `//`, `/`, `%` in this order;
then `+`, `-`. -/
def specTiers : List (List (Str × (JSNum → JSNum → JSNum))) :=
  [[("^".data, jsPow)],
   [("*".data, JSNum.mul), ("//".data, jsFloorDiv), ("/".data, JSNum.div),
    ("%".data, jsMod)],
   [("+".data, JSNum.add), ("-".data, JSNum.sub)]]

/-- "Select the match with the smallest starting offset (leftmost wins; ties
broken by tier-declaration order)": of a list of candidates in declaration
order, the first one achieving the minimal starting offset. -/
def selectLeftmost : List OpMatch → Option OpMatch
  | [] => none
  | m :: rest =>
    match selectLeftmost rest with
    | none => some m
    | some r => if r.idx < m.idx then some r else some m

/-- All matches of a tier's operators, in declaration order. -/
def tierCandidates (tier : List (Str × (JSNum → JSNum → JSNum))) (l : Str) :
    List OpMatch :=
  tier.filterMap (opCandidate l)

/-- The spec's per-tier selection. -/
def specPick (tier : List (Str × (JSNum → JSNum → JSNum))) (l : Str) : Option OpMatch :=
  selectLeftmost (tierCandidates tier l)

/-- "If no operator in the tier matches, move to the next tier." -/
def specFindTier : List (List (Str × (JSNum → JSNum → JSNum))) → Str → Option OpMatch
  | [], _ => none
  | tier :: rest, l =>
    match specPick tier l with
    | some m => some m
    | none => specFindTier rest l

/-- Operator Evaluation as worded by the spec: scan `specTiers` in priority
order, reduce the selected match, splice the result in, restart from tier 1;
with no match anywhere, delegate to Value Parsing. -/
def specEvaluateOperations : Nat → Str → Except Err JSNum
  | 0, _ => .error .outOfFuel
  | fuel + 1, equation =>
    match specFindTier specTiers equation with
    | none => parseValue equation
    | some m =>
      match parseValue m.a with
      | .error e => .error e
      | .ok a =>
        match parseValue m.b with
        | .error e => .error e
        | .ok b =>
          let equation2 := listSplice equation m.idx m.len (numToString (m.f a b))
          if equation2 = equation then .error .operationFailure
          else specEvaluateOperations fuel equation2

/-- Keep the better of an established best candidate and a later one:
the later one wins only with a strictly smaller offset. -/
def mergeBest : Option OpMatch → Option OpMatch → Option OpMatch
  | none, c => c
  | some b, none => some b
  | some b, some c => if c.idx < b.idx then some c else some b

theorem pickStep_eq_mergeBest (l : Str) (best : Option OpMatch)
    (opf : Str × (JSNum → JSNum → JSNum)) :
    pickStep l best opf = mergeBest best (opCandidate l opf) := by
  unfold pickStep mergeBest
  cases opCandidate l opf <;> cases best <;> rfl

theorem mergeBest_assoc (a b c : Option OpMatch) :
    mergeBest (mergeBest a b) c = mergeBest a (mergeBest b c) := by
  cases a <;> cases b <;> cases c <;> simp only [mergeBest] <;>
    split_ifs <;> simp only [mergeBest] <;> split_ifs <;> first | rfl | omega

theorem selectLeftmost_cons (m : OpMatch) (rest : List OpMatch) :
    selectLeftmost (m :: rest) = mergeBest (some m) (selectLeftmost rest) := by
  cases h : selectLeftmost rest <;> simp [selectLeftmost, mergeBest, h]

theorem specPick_cons (opf : Str × (JSNum → JSNum → JSNum))
    (tier : List (Str × (JSNum → JSNum → JSNum))) (l : Str) :
    specPick (opf :: tier) l = mergeBest (opCandidate l opf) (specPick tier l) := by
  unfold specPick tierCandidates
  rw [List.filterMap_cons]
  cases h : opCandidate l opf
  · simp only [mergeBest]
  · rw [selectLeftmost_cons]

theorem foldl_pickStep_eq (l : Str) (tier : List (Str × (JSNum → JSNum → JSNum))) :
    ∀ acc : Option OpMatch,
      tier.foldl (pickStep l) acc = mergeBest acc (specPick tier l) := by
  induction tier with
  | nil =>
    intro acc
    simp only [List.foldl_nil, specPick, tierCandidates, List.filterMap_nil, selectLeftmost]
    cases acc <;> rfl
  | cons opf rest ih =>
    intro acc
    rw [List.foldl_cons, ih, pickStep_eq_mergeBest, mergeBest_assoc, ← specPick_cons]

/-- The source's selection loop realizes the spec's selection rule. -/
theorem pickMatch_eq_specPick (tier : List (Str × (JSNum → JSNum → JSNum))) (l : Str) :
    pickMatch tier l = specPick tier l := by
  rw [pickMatch, foldl_pickStep_eq]
  rfl

theorem findTierMatch_eq_specFindTier
    (tiers : List (List (Str × (JSNum → JSNum → JSNum)))) (l : Str) :
    findTierMatch tiers l = specFindTier tiers l := by
  induction tiers with
  | nil => rfl
  | cons tier rest ih =>
    unfold findTierMatch specFindTier
    rw [pickMatch_eq_specPick, ih]

/-- C3: On parenthesis-free text, every operator reduction step scans the
tiers in priority order (`^`; then `*`, `//`, `/`, `%` tested in that order;
then `+`, `-`), and within the first tier that has any match of the form
number-operator-number selects the match with the smallest starting offset,
breaking ties by tier-declaration order; after splicing the computed result
into the text, scanning restarts from tier 1 on the updated text instead of
exhausting the current tier: the source's operator-evaluation stage
coincides with `specEvaluateOperations`, the rendering of exactly that
strategy from the spec's words. -/
theorem c3_operator_scan_refines_spec : ∀ (fuel : Nat) (equation : Str),
    evaluateOperations fuel equation = specEvaluateOperations fuel equation := by
  intro fuel
  induction fuel with
  | zero => intro equation; rfl
  | succ n ih =>
    intro equation
    unfold evaluateOperations specEvaluateOperations
    rw [findTierMatch_eq_specFindTier]
    have hT : OPERATIONPRIORITY = specTiers := rfl
    rw [hT]
    cases specFindTier specTiers equation with
    | none => rfl
    | some m =>
      dsimp only
      cases parseValue m.a with
      | error e => rfl
      | ok a =>
        dsimp only
        cases parseValue m.b with
        | error e => rfl
        | ok b =>
          dsimp only
          split_ifs
          · rfl
          · exact ih _

/-- Memoization touches only the `value` field of an existing entry. -/
theorem setValue_frame (vars : VarMap) (name : Str) (v : JSVal) :
    varFrame (setValue vars name v) = varFrame vars := by
  induction vars with
  | nil => rfl
  | cons p rest ih =>
    obtain ⟨k, w⟩ := p
    by_cases h : k = name <;> simp_all [setValue, varFrame, h]

/-- The substitution loop preserves the key set and every non-`value` field
of the variables mapping, on success and on error alike. -/
theorem substLoop_vars_frame : ∀ (fuel : Nat) (equation : Str) (vars : VarMap)
    (deps : List Str), varFrame (substLoop fuel equation vars deps).vars = varFrame vars := by
  intro fuel
  induction fuel with
  | zero => intro eq vars deps; rfl
  | succ n ih =>
    intro eq vars deps
    unfold substLoop
    cases h1 : findIdent eq with
    | none => rfl
    | some p =>
      obtain ⟨idx, name⟩ := p
      dsimp only
      cases h2 : lookupVar vars name with
      | none => rfl
      | some v =>
        dsimp only
        cases h3 : v.value with
        | none => rfl
        | some stored =>
          dsimp only
          split_ifs with hd hc
          · rfl
          · rfl
          · cases stored with
            | num q =>
              dsimp only
              split_ifs with hg
              · rfl
              · exact ih _ _ _
            | str s =>
              dsimp only
              cases h4 : (substLoop n (stripLeadingEq s) vars (deps ++ [name])).res with
              | error e =>
                dsimp only
                exact ih _ _ _
              | ok eq2 =>
                dsimp only
                cases h5 : checkParentheses eq2 with
                | error e =>
                  dsimp only
                  exact ih _ _ _
                | ok u =>
                  dsimp only
                  cases h6 : resolveParentheses n eq2 with
                  | error e =>
                    dsimp only
                    exact ih _ _ _
                  | ok v2 =>
                    dsimp only
                    split_ifs with hg
                    · rw [setValue_frame]
                      exact ih _ _ _
                    · rw [ih, setValue_frame]
                      exact ih _ _ _

theorem nodup_append_one {α : Type} (l : List α) (a : α) (h1 : l.Nodup) (h2 : a ∉ l) :
    (l ++ [a]).Nodup := by
  induction l with
  | nil => simp
  | cons x rest ih =>
    rw [List.cons_append, List.nodup_cons]
    refine ⟨?_, ih (List.Nodup.of_cons h1) (fun hm => h2 (List.mem_cons_of_mem x hm))⟩
    intro hx
    rcases List.mem_append.mp hx with hx1 | hx2
    · exact (List.nodup_cons.mp h1).1 hx1
    · cases List.mem_singleton.mp hx2
      exact h2 (List.mem_cons_self _ rest)

/-- Every dependency list handed to a recursive evaluation by the
substitution loop is duplicate-free, provided the incoming one is: the loop
extends `deps` only by `deps ++ [name]`, and only after the membership check
`name ∈ deps` has failed. -/
theorem substLoop_log_nodup : ∀ (fuel : Nat) (equation : Str) (vars : VarMap)
    (deps : List Str), deps.Nodup →
    ∀ d ∈ (substLoop fuel equation vars deps).log, d.Nodup := by
  intro fuel
  induction fuel with
  | zero =>
    intro eq vars deps hnd d hd
    simp [substLoop] at hd
  | succ n ih =>
    intro eq vars deps hnd
    unfold substLoop
    cases h1 : findIdent eq with
    | none => intro d hd; simp at hd
    | some p =>
      obtain ⟨idx, name⟩ := p
      dsimp only
      cases h2 : lookupVar vars name with
      | none => intro d hd; simp at hd
      | some v =>
        dsimp only
        cases h3 : v.value with
        | none => intro d hd; simp at hd
        | some stored =>
          dsimp only
          split_ifs with hd hc
          · intro d hm; simp at hm
          · intro d hm; simp at hm
          · cases stored with
            | num q =>
              dsimp only
              split_ifs with hg
              · intro d hm; simp at hm
              · intro d hm
                exact ih _ _ _ hnd d (by simpa using hm)
            | str s =>
              have hnd2 : (deps ++ [name]).Nodup := nodup_append_one deps name hnd hc
              dsimp only
              cases h4 : (substLoop n (stripLeadingEq s) vars (deps ++ [name])).res with
              | error e =>
                dsimp only
                intro d hm
                rcases List.mem_cons.mp hm with hm1 | hm2
                · exact hm1 ▸ hnd2
                · exact ih _ _ _ hnd2 d hm2
              | ok eq2 =>
                dsimp only
                cases h5 : checkParentheses eq2 with
                | error e =>
                  dsimp only
                  intro d hm
                  rcases List.mem_cons.mp hm with hm1 | hm2
                  · exact hm1 ▸ hnd2
                  · exact ih _ _ _ hnd2 d hm2
                | ok u =>
                  dsimp only
                  cases h6 : resolveParentheses n eq2 with
                  | error e =>
                    dsimp only
                    intro d hm
                    rcases List.mem_cons.mp hm with hm1 | hm2
                    · exact hm1 ▸ hnd2
                    · exact ih _ _ _ hnd2 d hm2
                  | ok v2 =>
                    dsimp only
                    split_ifs with hg
                    · intro d hm
                      rcases List.mem_cons.mp hm with hm1 | hm2
                      · exact hm1 ▸ hnd2
                      · exact ih _ _ _ hnd2 d hm2
                    · intro d hm
                      rcases List.mem_append.mp hm with hm0 | hm3
                      · rcases List.mem_cons.mp hm0 with hm1 | hm2
                        · exact hm1 ▸ hnd2
                        · exact ih _ _ _ hnd2 d hm2
                      · exact ih _ _ _ hnd d hm3

/-- The check/resolve stages after the substitution loop touch neither the
variables mapping nor the ghost log. -/
theorem substituteVariables_vars (fuel : Nat) (equation : Str) (vars : VarMap)
    (deps : List Str) :
    (substituteVariables fuel equation vars deps).vars = (substLoop fuel equation vars deps).vars := by
  unfold substituteVariables
  dsimp only
  cases h : (substLoop fuel equation vars deps).res with
  | error e => rfl
  | ok eq2 =>
    dsimp only
    cases checkParentheses eq2 <;> rfl

theorem substituteVariables_log (fuel : Nat) (equation : Str) (vars : VarMap)
    (deps : List Str) :
    (substituteVariables fuel equation vars deps).log = (substLoop fuel equation vars deps).log := by
  unfold substituteVariables
  dsimp only
  cases h : (substLoop fuel equation vars deps).res with
  | error e => rfl
  | ok eq2 =>
    dsimp only
    cases checkParentheses eq2 <;> rfl

theorem evaluateEquation_vars (fuel : Nat) (equation : Str) (vars : VarMap)
    (deps : List Str) :
    (evaluateEquation fuel equation vars deps).vars =
      (substLoop fuel (stripLeadingEq equation) vars deps).vars := by
  unfold evaluateEquation
  exact substituteVariables_vars fuel (stripLeadingEq equation) vars deps

theorem evaluateEquation_log (fuel : Nat) (equation : Str) (vars : VarMap)
    (deps : List Str) :
    (evaluateEquation fuel equation vars deps).log =
      deps :: (substLoop fuel (stripLeadingEq equation) vars deps).log := by
  unfold evaluateEquation
  dsimp only
  rw [substituteVariables_log]

/-- C9: For every call to `evaluateEquation` — returning or throwing — the
variables mapping keeps exactly the same keys, and every field of every
entry other than `value` (`name`, `disabled`, `comment`) is unchanged: the
evaluator only ever writes the `value` field of existing entries. -/
theorem c9_frame_of_variables_mapping : ∀ (fuel : Nat) (equation : Str) (vars : VarMap)
    (deps : List Str),
    (evaluateEquation fuel equation vars deps).vars.map Prod.fst = vars.map Prod.fst ∧
    varFrame (evaluateEquation fuel equation vars deps).vars = varFrame vars := by
  intro fuel equation vars deps
  have h : varFrame (evaluateEquation fuel equation vars deps).vars = varFrame vars := by
    rw [evaluateEquation_vars]
    exact substLoop_vars_frame fuel (stripLeadingEq equation) vars deps
  refine ⟨?_, h⟩
  have h2 := congrArg (List.map (fun q => q.1)) h
  simpa [varFrame, List.map_map, Function.comp] using h2

/-- C4: Along every recursive resolution chain the dependency stack stays
duplicate-free (every dependency list received by a recursive
`evaluateEquation` invocation, as recorded by the ghost log, is `Nodup`
whenever the initial one is); when the leftmost identifier of an equation
already occurs in the current dependencies — being defined and enabled, the
state in which a dependency entry is pushed — the loop stops with
`CyclicDependency`, the mapping untouched and no recursive evaluation
performed (so before the identifier is appended); direct self-reference and
transitive cycles are both caught concretely. -/
theorem c4_no_duplicate_dependency : (∀ (fuel : Nat) (equation : Str) (vars : VarMap)
      (deps : List Str), deps.Nodup →
      ∀ d ∈ (evaluateEquation fuel equation vars deps).log, d.Nodup) ∧
    (∀ (fuel : Nat) (equation : Str) (vars : VarMap) (deps : List Str) (idx : Nat)
      (name : Str) (v : Variable) (stored : JSVal),
      findIdent equation = some (idx, name) → lookupVar vars name = some v →
      v.value = some stored → v.disabled = false → name ∈ deps →
      substLoop (fuel + 1) equation vars deps = ⟨.error .cyclicDependency, vars, []⟩) ∧
    (evaluateEquation 10 "a".data
        [("a".data, ⟨"a".data, some (.str "a+1".data), false, []⟩)] []).res =
      .error .cyclicDependency ∧
    (evaluateEquation 12 "a".data
        [("a".data, ⟨"a".data, some (.str "b+1".data), false, []⟩),
         ("b".data, ⟨"b".data, some (.str "a+1".data), false, []⟩)] []).res =
      .error .cyclicDependency := by
  refine ⟨?_, ?_, by decide, by decide⟩
  · intro fuel equation vars deps hnd d hd
    rw [evaluateEquation_log] at hd
    rcases List.mem_cons.mp hd with h1 | h2
    · exact h1 ▸ hnd
    · exact substLoop_log_nodup fuel (stripLeadingEq equation) vars deps hnd d h2
  · intro fuel equation vars deps idx name v stored h1 h2 h3 hdis hmem
    simp [substLoop, h1, h2, h3, hdis, hmem]

theorem c4_no_duplicate_dependency_witness :
    (∀ d ∈ (evaluateEquation 5 "7".data [] ["q".data]).log, d.Nodup) ∧
    substLoop 4 "a".data [("a".data, ⟨"a".data, some (.num 1), false, []⟩)] ["a".data] =
      ⟨.error .cyclicDependency, [("a".data, ⟨"a".data, some (.num 1), false, []⟩)], []⟩ :=
  ⟨c4_no_duplicate_dependency.1 5 "7".data [] ["q".data] (by decide),
   c4_no_duplicate_dependency.2.1 3 "a".data
     [("a".data, ⟨"a".data, some (.num 1), false, []⟩)] ["a".data] 0 "a".data
     ⟨"a".data, some (.num 1), false, []⟩ (.num 1)
     (by decide) (by decide) rfl rfl (by decide)⟩

/-- C1 (failing input): with balanced parenthesis counts but a `)` preceding
the first `(`, `evaluateEquation` neither throws nor returns a number: on
`"1)(2"` with an empty variables mapping it terminates normally with the
*string* `"1(2"` (the `close < open` branch of `resolveParentheses` returns
`value + equation.slice(close+1)`, a string concatenation, and at top level
no outer recursion consumes it), contradicting the documented
`evaluate(...) -> Number` contract. -/
theorem c1_string_result_on_close_before_open :
    evaluateEquation 10 "1)(2".data [] [] = ⟨.ok (.str "1(2".data), [], [[]]⟩ := by
  decide

/-- C2: the six arithmetic examples, with an empty variables mapping:
`2+3 = 5`; `2+3*4 = 14` (multiplication binds tighter); `(2+3)*4 = 20`
(parentheses override precedence); `2^3 = 8`; `7//2 = 3` (floored division);
`7%2 = 1`. -/
theorem c2_arithmetic_examples :
    (evaluateEquation 20 "2+3".data [] []).res = .ok (.num 5) ∧
    (evaluateEquation 20 "2+3*4".data [] []).res = .ok (.num 14) ∧
    (evaluateEquation 20 "(2+3)*4".data [] []).res = .ok (.num 20) ∧
    (evaluateEquation 20 "2^3".data [] []).res = .ok (.num 8) ∧
    (evaluateEquation 20 "7//2".data [] []).res = .ok (.num 3) ∧
    (evaluateEquation 20 "7%2".data [] []).res = .ok (.num 1) := by
  refine ⟨by decide, by decide, by decide, by decide, by decide, by decide⟩

/-- C5: with `a = "b+1"` and `b = "2"`, `evaluate("a")` returns 3, and after
the call both `a.value` and `b.value` have been overwritten in place with
the resolved numbers (memoization), every other part of the mapping
untouched. -/
theorem c5_chained_formulas_memoized :
    evaluateEquation 16 "a".data
        [("a".data, ⟨"a".data, some (.str "b+1".data), false, []⟩),
         ("b".data, ⟨"b".data, some (.str "2".data), false, []⟩)] [] =
      ⟨.ok (.num 3),
       [("a".data, ⟨"a".data, some (.num 3), false, []⟩),
        ("b".data, ⟨"b".data, some (.num 2), false, []⟩)],
       [[], ["a".data], ["a".data, "b".data]]⟩ := by
  decide

/-- C6: at the leftmost identifier, a missing mapping entry or an entry
without a value throws `UndefinedVariable`; otherwise a `disabled` entry
throws `DisabledVariable` — the existence/value check precedes the disabled
check (the `UndefinedVariable` outcomes hold whatever `disabled` is), and
the disabled check precedes both the cycle check and any recursive
evaluation (the `DisabledVariable` outcome holds whatever `deps` contains
and whatever shape the value has, with the mapping unchanged and the ghost
log empty, i.e. the formula is never evaluated); concretely,
`evaluate("x")` with `x` disabled throws `DisabledVariable`. -/
theorem c6_undefined_then_disabled_precedence :
    (∀ (fuel : Nat) (equation : Str) (vars : VarMap) (deps : List Str) (idx : Nat)
      (name : Str),
      findIdent equation = some (idx, name) → lookupVar vars name = none →
      substLoop (fuel + 1) equation vars deps = ⟨.error .undefinedVariable, vars, []⟩) ∧
    (∀ (fuel : Nat) (equation : Str) (vars : VarMap) (deps : List Str) (idx : Nat)
      (name : Str) (v : Variable),
      findIdent equation = some (idx, name) → lookupVar vars name = some v →
      v.value = none →
      substLoop (fuel + 1) equation vars deps = ⟨.error .undefinedVariable, vars, []⟩) ∧
    (∀ (fuel : Nat) (equation : Str) (vars : VarMap) (deps : List Str) (idx : Nat)
      (name : Str) (v : Variable) (stored : JSVal),
      findIdent equation = some (idx, name) → lookupVar vars name = some v →
      v.value = some stored → v.disabled = true →
      substLoop (fuel + 1) equation vars deps = ⟨.error .disabledVariable, vars, []⟩) ∧
    (evaluateEquation 10 "x".data
        [("x".data, ⟨"x".data, some (.str "1".data), true, []⟩)] []).res =
      .error .disabledVariable := by
  refine ⟨?_, ?_, ?_, by decide⟩
  · intro fuel equation vars deps idx name h1 h2
    simp [substLoop, h1, h2]
  · intro fuel equation vars deps idx name v h1 h2 h3
    simp [substLoop, h1, h2, h3]
  · intro fuel equation vars deps idx name v stored h1 h2 h3 hdis
    simp [substLoop, h1, h2, h3, hdis]

theorem c6_undefined_then_disabled_precedence_witness :
    substLoop 5 "y".data [] ["y".data] = ⟨.error .undefinedVariable, [], []⟩ ∧
    substLoop 5 "z".data [("z".data, ⟨"z".data, some (.str "1".data), true, []⟩)]
        ["z".data] =
      ⟨.error .disabledVariable,
       [("z".data, ⟨"z".data, some (.str "1".data), true, []⟩)], []⟩ :=
  ⟨c6_undefined_then_disabled_precedence.1 4 "y".data [] ["y".data] 0 "y".data
     (by decide) rfl,
   c6_undefined_then_disabled_precedence.2.2.1 4 "z".data
     [("z".data, ⟨"z".data, some (.str "1".data), true, []⟩)] ["z".data] 0 "z".data
     ⟨"z".data, some (.str "1".data), true, []⟩ (.str "1".data)
     (by decide) (by decide) rfl rfl⟩

/-- C7: `checkParentheses` throws `ParenthesisMismatch` exactly when the
`(` and `)` counts differ; whenever the substitution loop ends with a text
whose counts differ, `substituteVariables` throws `ParenthesisMismatch`
(the check runs before `resolveParentheses` is ever entered); concretely,
`evaluate("(2+3")` throws `ParenthesisMismatch`. -/
theorem c7_mismatch_before_resolution :
    (∀ equation : Str,
      checkParentheses equation = .error .parenthesisMismatch ↔
        countChar equation '(' ≠ countChar equation ')') ∧
    (∀ (fuel : Nat) (equation : Str) (vars : VarMap) (deps : List Str) (eq2 : Str),
      (substLoop fuel equation vars deps).res = .ok eq2 →
      countChar eq2 '(' ≠ countChar eq2 ')' →
      (substituteVariables fuel equation vars deps).res = .error .parenthesisMismatch) ∧
    (evaluateEquation 10 "(2+3".data [] []).res = .error .parenthesisMismatch := by
  refine ⟨?_, ?_, by decide⟩
  · intro equation
    unfold checkParentheses
    split_ifs with h <;> simp [h]
  · intro fuel equation vars deps eq2 hres hcnt
    have hchk : checkParentheses eq2 = .error .parenthesisMismatch := by
      unfold checkParentheses
      rw [if_neg hcnt]
    unfold substituteVariables
    dsimp only
    rw [hres]
    dsimp only
    rw [hchk]

theorem c7_mismatch_before_resolution_witness :
    (checkParentheses "(2".data = .error .parenthesisMismatch ↔
      countChar "(2".data '(' ≠ countChar "(2".data ')') ∧
    (substituteVariables 5 "(2".data [] []).res = .error .parenthesisMismatch :=
  ⟨c7_mismatch_before_resolution.1 "(2".data,
   c7_mismatch_before_resolution.2.1 5 "(2".data [] [] "(2".data (by decide) (by decide)⟩

/-- C8: value parsing never coerces silently: blank or whitespace-only
residual text throws `EmptyExpression` (never the number 0 that `Number`
would produce), non-blank text that is not a valid number throws
`ParseFailure`, and a valid numeric residual is returned as that number;
concretely, `evaluate("")` throws `EmptyExpression`. -/
theorem c8_parse_value_trichotomy :
    (∀ s : Str, trimWs s = [] → parseValue s = .error .emptyExpression) ∧
    (∀ s : Str, trimWs s ≠ [] → jsToNumber s = none →
      parseValue s = .error .parseFailure) ∧
    (∀ (s : Str) (q : JSNum), trimWs s ≠ [] → jsToNumber s = some q →
      parseValue s = .ok q) ∧
    (evaluateEquation 10 "".data [] []).res = .error .emptyExpression := by
  refine ⟨?_, ?_, ?_, by decide⟩
  · intro s h
    unfold parseValue
    rw [if_pos h]
  · intro s h hn
    unfold parseValue
    rw [if_neg h, hn]
  · intro s q h hn
    unfold parseValue
    rw [if_neg h, hn]

theorem c8_parse_value_trichotomy_witness :
    parseValue " ".data = .error .emptyExpression ∧
    parseValue "@".data = .error .parseFailure ∧
    parseValue "42".data = .ok 42 :=
  ⟨c8_parse_value_trichotomy.1 " ".data (by decide),
   c8_parse_value_trichotomy.2.1 "@".data (by decide) (by decide),
   c8_parse_value_trichotomy.2.2.1 "42".data 42 (by decide) (by decide)⟩

/-- C10: evaluation is not atomic on the variables mapping:
`evaluate("x+y", {x: {value: "2"}})` resolves `x` first (overwriting
`x.value` with the number 2), then throws `UndefinedVariable` for `y`, and
after the throw the memoized value of `x` remains a number — no rollback is
performed on the error path. -/
theorem c10_no_rollback_on_error :
    evaluateEquation 10 "x+y".data
        [("x".data, ⟨"x".data, some (.str "2".data), false, []⟩)] [] =
      ⟨.error .undefinedVariable,
       [("x".data, ⟨"x".data, some (.num 2), false, []⟩)],
       [[], ["x".data]]⟩ := by
  decide

end Equations
